import Mathlib

/-!
Shallow embedding of the scheduled-action coordinator of `bot.py`
(801DoorBot): the auto-lock scheduler (`schedule_lock_time` /
`lock_at_time`), the rate-limited status-channel mutator
(`update_status_channel` / `schedule_delayed_update` /
`delayed_update_task`), and the time-input parser (`parse_time_input`).

Instants and durations are modelled as integer seconds on one timeline.
External collaborators (the Unifi door controller, the Discord channel
rename, logging sinks) are modelled as explicit parameters and as an
event trace emitted by each operation.
-/

/-- Observable effects of one operation: log lines at their levels, the
channel rename (`channel.edit`), task creation and cancellation, the
door-lock call (`set_evacuation_mode(False)`), and the best-effort
notifications. -/
inductive Ev where
  | debugLog (msg : String)
  | infoLog (msg : String)
  | warnLog (msg : String)
  | errorLog (msg : String)
  | auditLog (msg : String)
  | editChannel (new_name : String)
  | createDelayedTask (delay : Int) (captured_unlocked : Bool)
  | cancelLockTask
  | createLockTask (captured : Int)
  | lockDoors
  | notifyChannels
  | statusUpdate
  deriving DecidableEq, Repr

/-- The asyncio task created by `schedule_lock_time`: it captures the
target `lock_time` in its closure; `done` is the Task.done() flag. -/
structure LockTask where
  captured : Int
  done : Bool
  deriving DecidableEq, Repr

/-- The module-level scheduler state: globals `next_lock_time` and
`lock_task` of bot.py. -/
structure SchedState where
  next_lock_time : Option Int
  lock_task : Option LockTask
  deriving DecidableEq, Repr

/-- Embedding of `schedule_lock_time(lock_time)` (bot.py 953-964,
1053-1055): cancel the
existing task if one is pending and not done, store `lock_time` as
`next_lock_time`, and start a fresh task capturing `lock_time`. -/
def schedule_lock_time (lock_time : Int) (st : SchedState) : SchedState × List Ev :=
  let cancel_evs : List Ev :=
    match st.lock_task with
    | some t => if t.done = false then [Ev.cancelLockTask] else []
    | none => []
  ({ next_lock_time := some lock_time,
     lock_task := some { captured := lock_time, done := false } },
   cancel_evs ++ [Ev.createLockTask lock_time])

/-- The body of `lock_at_time` after its `asyncio.sleep` returns
(bot.py 982-1037).  Cooperative cancellation may lose the race with the
sleep, so a superseded task can still reach this point; the only guard is
the comparison of the captured `lock_time` against the current global
`next_lock_time`.  `unifi_ok` models `unifi` being initialised, `lock_ok`
models `set_evacuation_mode(False)` succeeding. -/
def lock_at_time_wake (captured : Int) (unifi_ok lock_ok : Bool) (st : SchedState) :
    SchedState × List Ev :=
  if st.next_lock_time = some captured then
    if unifi_ok then
      if lock_ok then
        ({ st with next_lock_time := none },
         [Ev.infoLog "Executing scheduled lock",
          Ev.auditLog "Executing scheduled lock",
          Ev.lockDoors,
          Ev.auditLog "Success - All doors locked after timeout",
          Ev.notifyChannels, Ev.statusUpdate])
      else
        ({ st with next_lock_time := none },
         [Ev.infoLog "Executing scheduled lock",
          Ev.auditLog "Executing scheduled lock",
          Ev.lockDoors,
          Ev.errorLog "Failed to lock doors during scheduled lock",
          Ev.auditLog "Failed"])
    else
      (st, [Ev.infoLog "Executing scheduled lock",
            Ev.auditLog "Executing scheduled lock"])
  else
    (st, [Ev.debugLog "Scheduled lock was cancelled (new lock time was set)",
          Ev.auditLog "Cancelled - New lock time was set"])

/-- The timer-clearing step of the `lock` command (bot.py 672-690): cancel
the pending auto-lock task if one exists and is not done, and clear
`next_lock_time`. -/
def lock_clear_timer (st : SchedState) : SchedState × List Ev :=
  let cleared :=
    match st.lock_task with
    | some t =>
      if t.done = false then
        ((none : Option LockTask),
         [Ev.cancelLockTask, Ev.infoLog "Cancelled scheduled auto-lock timer"])
      else (st.lock_task, [])
    | none => (st.lock_task, [])
  ({ next_lock_time := none, lock_task := cleared.1 }, cleared.2)

/-- C1: scheduling T1 and then T2 (with T2 a different target time) before
T1 elapses means only the T2 task performs the lock: the T1 task, even if
its sleep completes after being superseded, sees that its captured time no
longer equals the stored `next_lock_time`, logs at debug level, and exits
with no state change and without invoking the lock action; the T2 task
does invoke it. -/
theorem c1_supersede_stale_noop (T1 T2 : Int) (st0 st2 : SchedState)
    (hne : T1 ≠ T2) (unifi_ok lock_ok : Bool)
    (h2 : st2 = (schedule_lock_time T2 (schedule_lock_time T1 st0).1).1) :
    lock_at_time_wake T1 unifi_ok lock_ok st2 =
      (st2, [Ev.debugLog "Scheduled lock was cancelled (new lock time was set)",
             Ev.auditLog "Cancelled - New lock time was set"]) ∧
    Ev.lockDoors ∉ (lock_at_time_wake T1 unifi_ok lock_ok st2).2 ∧
    Ev.lockDoors ∈ (lock_at_time_wake T2 true true st2).2 := by
  subst h2
  have hne2 : T2 ≠ T1 := fun h => hne h.symm
  refine ⟨?_, ?_, ?_⟩ <;>
    simp [schedule_lock_time, lock_at_time_wake, hne2]

/-- Witness for C1 at T1 = 1, T2 = 2 from the empty scheduler state. -/
theorem c1_supersede_stale_noop_witness :
    lock_at_time_wake 1 true true
        (SchedState.mk (some 2) (some (LockTask.mk 2 false))) =
      ((SchedState.mk (some 2) (some (LockTask.mk 2 false))),
       [Ev.debugLog "Scheduled lock was cancelled (new lock time was set)",
        Ev.auditLog "Cancelled - New lock time was set"]) ∧
    Ev.lockDoors ∉ (lock_at_time_wake 1 true true
        (SchedState.mk (some 2) (some (LockTask.mk 2 false)))).2 ∧
    Ev.lockDoors ∈ (lock_at_time_wake 2 true true
        (SchedState.mk (some 2) (some (LockTask.mk 2 false)))).2 :=
  c1_supersede_stale_noop 1 2 (SchedState.mk none none) _ (by decide) true true rfl

/-- C9: running the lock command timer-clearing step when nothing is armed
(no stored next-action time and no live task) returns without error,
leaves the state unchanged, and emits no cancellation or creation. -/
theorem c9_cancel_nothing_armed (st : SchedState)
    (h1 : st.next_lock_time = none)
    (h2 : ∀ t, st.lock_task = some t → t.done = true) :
    lock_clear_timer st = (st, []) := by
  obtain ⟨nt, lt⟩ := st
  subst h1
  cases lt with
  | none => rfl
  | some t =>
    have hd : t.done = true := h2 t rfl
    simp [lock_clear_timer, hd]

/-- Witness for C9 at the empty scheduler state. -/
theorem c9_cancel_nothing_armed_witness :
    lock_clear_timer (SchedState.mk none none) = ((SchedState.mk none none), []) :=
  c9_cancel_nothing_armed (SchedState.mk none none) rfl (by intro t h; cases h)

/-! ## Rate-limited status-channel mutator -/

/-- Discord allows 2 channel renames per period (bot.py 40). -/
def MAX_UPDATES_PER_PERIOD : Nat := 2

/-- The rolling window, 10 minutes in seconds (bot.py 41). -/
def RATE_LIMIT_PERIOD : Int := 600

def LOCKED_EMOJI : String := "🔐"

def UNLOCKED_EMOJI : String := "🟢"

/-- The channel name written for a door state (bot.py 258-265); `base_name`
is the configured name with any trailing emoji already stripped. -/
def render_name (base_name : String) (is_unlocked : Bool) : String :=
  base_name ++ "-" ++ (if is_unlocked then UNLOCKED_EMOJI else LOCKED_EMOJI)

/-- Python dict lookup on an association list keyed by strings. -/
def alookup {α : Type} (k : String) : List (String × α) → Option α
  | [] => none
  | (k2, v) :: rest => if k2 = k then some v else alookup k rest

/-- Python dict assignment `d[k] = v` on an association list. -/
def aset {α : Type} (k : String) (v : α) : List (String × α) → List (String × α)
  | [] => [(k, v)]
  | (k2, v2) :: rest => if k2 = k then (k, v) :: rest else (k2, v2) :: aset k v rest

/-- Python `min` of a list of timestamps (callers only apply it to
nonempty lists; the default is never reached on the modelled paths). -/
def pymin : List Int → Int
  | [] => 0
  | x :: xs => xs.foldl min x

/-- The task object stored in `pending_channel_updates`: the closure
captures `delay_with_buffer` and `is_unlocked`; `done` is Task.done(). -/
structure DTask where
  delay_with_buffer : Int
  captured_unlocked : Bool
  done : Bool
  deriving DecidableEq, Repr

/-- The module-level mutator state: the actual Discord channel name and
the globals `channel_update_history` and `pending_channel_updates`
(bot.py 39, 103), keyed by `channel_key`. -/
structure MutState where
  channel_name : String
  channel_update_history : List (String × List Int)
  pending_channel_updates : List (String × DTask)
  deriving DecidableEq, Repr

/-- Embedding of `schedule_delayed_update` (bot.py 162-203): if a pending, not-done
task already exists for the key, keep it and return; otherwise create a
task that will wake after `delay_seconds + 10` (the extra buffer). -/
def schedule_delayed_update (channel_key : String) (is_unlocked : Bool)
    (delay_seconds : Int) (st : MutState) : MutState × List Ev :=
  let pending_live : Bool :=
    match alookup channel_key st.pending_channel_updates with
    | some t => !t.done
    | none => false
  if pending_live then
    (st, [Ev.debugLog "Task already pending for channel, keeping existing schedule"])
  else
    let delay_with_buffer := delay_seconds + 10
    let reg2 := aset channel_key (DTask.mk delay_with_buffer is_unlocked false)
      st.pending_channel_updates
    ({ st with pending_channel_updates := reg2 },
     [Ev.infoLog "Scheduling channel name update",
      Ev.createDelayedTask delay_with_buffer is_unlocked])

/-- Outcome of the external `channel.edit(name=...)` call (bot.py 300,
310-335): success, an HTTP 429 quota answer, a permission failure, or any
other error. -/
inductive WriteResult where
  | success
  | rateLimited
  | forbidden
  | otherError
  deriving DecidableEq, Repr

/-- The write attempt and its handlers (bot.py 296-335), entered with the
history for the key already pruned and stored by the caller. -/
def attempt_edit (channel_key new_name : String) (current_time : Int)
    (is_unlocked : Bool) (write_result : WriteResult) (st1 : MutState) :
    MutState × List Ev :=
  match write_result with
  | .success =>
    let st2 := { st1 with channel_name := new_name }
    let hist2 :=
      match alookup channel_key st2.channel_update_history with
      | some h => h ++ [current_time]
      | none => [current_time]
    let hmap2 := aset channel_key hist2 st2.channel_update_history
    ({ st2 with channel_update_history := hmap2 }, [Ev.editChannel new_name])
  | .rateLimited =>
    let hist2 :=
      match alookup channel_key st1.channel_update_history with
      | some h => h ++ [current_time]
      | none => [current_time]
    let hmap2 := aset channel_key hist2 st1.channel_update_history
    let st2 := { st1 with channel_update_history := hmap2 }
    if 0 < hist2.length then
      let oldest_update := pymin hist2
      let time_until_available := RATE_LIMIT_PERIOD - (current_time - oldest_update)
      let step := schedule_delayed_update channel_key is_unlocked time_until_available st2
      (step.1, Ev.warnLog "Rate limit hit when updating channel name" :: step.2)
    else (st2, [Ev.warnLog "Rate limit hit when updating channel name"])
  | .forbidden =>
    (st1, [Ev.errorLog "Failed to update status channel: Missing permissions"])
  | .otherError =>
    (st1, [Ev.errorLog "HTTP error when updating status channel"])

/-- The freshly re-read door state when `force_check` is set
(bot.py 221-241): `api_door_status = none` models the status call
raising, in which case the passed-in value is kept. -/
def resolveUnlocked (force_check : Bool) (api_door_status : Option Bool)
    (is_unlocked : Bool) : Bool :=
  if force_check then api_door_status.getD is_unlocked else is_unlocked

/-- Embedding of `update_status_channel` (bot.py 206-339) for a configured and found
status channel.  Re-resolves the door state when `force_check`, skips the
write when the name is already correct, prunes the key history to the
rolling window and defers when the pruned count reaches the quota,
otherwise attempts the write. -/
def update_status_channel (base_name channel_key : String) (current_time : Int)
    (is_unlocked0 force_check : Bool) (api_door_status : Option Bool)
    (write_result : WriteResult) (st : MutState) : MutState × List Ev :=
  let is_unlocked := resolveUnlocked force_check api_door_status is_unlocked0
  let new_name := render_name base_name is_unlocked
  if st.channel_name = new_name then (st, [])
  else
    match alookup channel_key st.channel_update_history with
    | some hist =>
      let recent_updates := hist.filter fun t => current_time - t < RATE_LIMIT_PERIOD
      if MAX_UPDATES_PER_PERIOD ≤ recent_updates.length then
        let oldest_update := pymin recent_updates
        let time_until_available := RATE_LIMIT_PERIOD - (current_time - oldest_update)
        let step := schedule_delayed_update channel_key is_unlocked time_until_available st
        (step.1,
         Ev.warnLog "Skipping immediate channel name update due to rate limiting" :: step.2)
      else
        let hmap1 := aset channel_key recent_updates st.channel_update_history
        attempt_edit channel_key new_name current_time is_unlocked write_result
          { st with channel_update_history := hmap1 }
    | none =>
      let hmap1 := aset channel_key ([] : List Int) st.channel_update_history
      attempt_edit channel_key new_name current_time is_unlocked write_result
        { st with channel_update_history := hmap1 }

/-- The `finally` clause of `delayed_update_task` (bot.py 196-199).  In
asyncio a Task is not `done()` while its own coroutine is still running
its `finally` block, so when the registry still holds the running task
itself the `done` flag read here is false. -/
def delayed_task_finally (channel_key : String) (st : MutState) : MutState :=
  match alookup channel_key st.pending_channel_updates with
  | some t =>
    if t.done then
      let reg2 := st.pending_channel_updates.filter fun p => p.1 ≠ channel_key
      { st with pending_channel_updates := reg2 }
    else st
  | none => st

/-- The runtime marking the finished task object done, after its
coroutine (including the `finally`) has completed. -/
def mark_task_done (channel_key : String) (st : MutState) : MutState :=
  match alookup channel_key st.pending_channel_updates with
  | some t =>
    let reg2 := aset channel_key { t with done := true } st.pending_channel_updates
    { st with pending_channel_updates := reg2 }
  | none => st

/-- One full run of `delayed_update_task` (bot.py 184-199): after the
sleep it either was cancelled (CancelledError, logged) or performs
`update_status_channel(..., force_check=True)`; either way the `finally`
clause runs, and afterwards the runtime marks the task done. -/
def run_delayed_task (base_name channel_key : String) (fire_time : Int)
    (captured_unlocked : Bool) (api_door_status : Option Bool)
    (write_result : WriteResult) (cancelled : Bool) (st : MutState) :
    MutState × List Ev :=
  let body :=
    if cancelled then (st, [Ev.debugLog "Delayed channel update was cancelled"])
    else
      let step := update_status_channel base_name channel_key fire_time
        captured_unlocked true api_door_status write_result st
      (step.1, Ev.infoLog "Executing delayed channel name update" :: step.2)
  let st2 := delayed_task_finally channel_key body.1
  (mark_task_done channel_key st2, body.2)

theorem alookup_aset_self {α : Type} (k : String) (v : α) (l : List (String × α)) :
    alookup k (aset k v l) = some v := by
  induction l with
  | nil => simp [aset, alookup]
  | cons p rest ih =>
    obtain ⟨k2, v2⟩ := p
    by_cases h : k2 = k <;> simp [aset, alookup, h, ih]

theorem aset_aset_self {α : Type} (k : String) (v1 v2 : α) (l : List (String × α)) :
    aset k v2 (aset k v1 l) = aset k v2 l := by
  induction l with
  | nil => simp [aset]
  | cons p rest ih =>
    obtain ⟨k2, v2'⟩ := p
    by_cases h : k2 = k <;> simp [aset, h, ih]

/-- C2: an `update_status_channel` call that hits the quota while an
active, unfinished deferred-retry task already exists for the key returns
without creating a second task and leaves the whole state — including the
existing task and its delay — unchanged. -/
theorem c2_single_flight (base_name channel_key : String) (current_time : Int)
    (is_unlocked0 force_check : Bool) (api_door_status : Option Bool)
    (write_result : WriteResult) (st : MutState) (hist : List Int) (t : DTask)
    (hname : st.channel_name ≠
      render_name base_name (resolveUnlocked force_check api_door_status is_unlocked0))
    (hh : alookup channel_key st.channel_update_history = some hist)
    (hq : MAX_UPDATES_PER_PERIOD ≤
      (hist.filter fun x => current_time - x < RATE_LIMIT_PERIOD).length)
    (hp : alookup channel_key st.pending_channel_updates = some t)
    (hlive : t.done = false) :
    update_status_channel base_name channel_key current_time is_unlocked0
        force_check api_door_status write_result st =
      (st, [Ev.warnLog "Skipping immediate channel name update due to rate limiting",
            Ev.debugLog "Task already pending for channel, keeping existing schedule"]) := by
  unfold update_status_channel schedule_delayed_update
  rw [hh]
  simp [hname, hq, hp, hlive]

/-- Witness for C2: a second request for the key while a 90+10-second
retry is pending changes nothing. -/
theorem c2_single_flight_witness :
    update_status_channel "doors" "k" 700 true false none WriteResult.success
        (MutState.mk "doors-🔐" [("k", [200, 300])] [("k", DTask.mk 100 true false)]) =
      ((MutState.mk "doors-🔐" [("k", [200, 300])] [("k", DTask.mk 100 true false)]),
       [Ev.warnLog "Skipping immediate channel name update due to rate limiting",
        Ev.debugLog "Task already pending for channel, keeping existing schedule"]) :=
  c2_single_flight "doors" "k" 700 true false none WriteResult.success
    (MutState.mk "doors-🔐" [("k", [200, 300])] [("k", DTask.mk 100 true false)])
    [200, 300] (DTask.mk 100 true false)
    (by decide) (by decide) (by decide) (by decide) (by decide)

/-- C3: the pending-retry registry entry is NOT removed when the task
finishes.  The `finally` clause only deletes the entry when the stored
task reads as done, but an asyncio task is never `done()` while its own
coroutine is still executing its `finally` block, so after a created
delayed task runs to completion — and likewise when it is cancelled — the
key still maps to that (now finished) task.  This contradicts the claim
(and the code's own comment "Remove the task from tracking once it's
complete"): the deletion branch never fires on the task's own exit
paths. -/
theorem c3_entry_never_removed :
    alookup "k" (run_delayed_task "doors" "k" 1000 true none WriteResult.success false
        ((schedule_delayed_update "k" true 90 (MutState.mk "doors-🔐" [] [])).1)).1.pending_channel_updates =
      some (DTask.mk 100 true true) ∧
    alookup "k" (run_delayed_task "doors" "k" 1000 true none WriteResult.success true
        ((schedule_delayed_update "k" true 90 (MutState.mk "doors-🔐" [] [])).1)).1.pending_channel_updates =
      some (DTask.mk 100 true true) := by
  constructor <;> decide

/-- Write path of `update_status_channel` when the key has no history yet:
the name changes and the history becomes the singleton of the call time. -/
theorem upd_first_write (base_name channel_key : String) (now : Int)
    (is_unlocked0 force_check : Bool) (api_door_status : Option Bool) (st : MutState)
    (hname : st.channel_name ≠
      render_name base_name (resolveUnlocked force_check api_door_status is_unlocked0))
    (hh : alookup channel_key st.channel_update_history = none) :
    update_status_channel base_name channel_key now is_unlocked0 force_check
        api_door_status WriteResult.success st =
      (MutState.mk
        (render_name base_name (resolveUnlocked force_check api_door_status is_unlocked0))
        (aset channel_key [now] st.channel_update_history)
        st.pending_channel_updates,
       [Ev.editChannel
         (render_name base_name (resolveUnlocked force_check api_door_status is_unlocked0))]) := by
  unfold update_status_channel attempt_edit
  rw [hh]
  simp [hname, alookup_aset_self, aset_aset_self]

/-- Write path of `update_status_channel` when the key has history whose
pruned form is below the quota: the name changes and the history becomes
the pruned list with the call time appended. -/
theorem upd_next_write (base_name channel_key : String) (now : Int)
    (is_unlocked0 force_check : Bool) (api_door_status : Option Bool) (st : MutState)
    (hist : List Int)
    (hname : st.channel_name ≠
      render_name base_name (resolveUnlocked force_check api_door_status is_unlocked0))
    (hh : alookup channel_key st.channel_update_history = some hist)
    (hq : (hist.filter fun x => now - x < RATE_LIMIT_PERIOD).length < MAX_UPDATES_PER_PERIOD) :
    update_status_channel base_name channel_key now is_unlocked0 force_check
        api_door_status WriteResult.success st =
      (MutState.mk
        (render_name base_name (resolveUnlocked force_check api_door_status is_unlocked0))
        (aset channel_key ((hist.filter fun x => now - x < RATE_LIMIT_PERIOD) ++ [now])
          st.channel_update_history)
        st.pending_channel_updates,
       [Ev.editChannel
         (render_name base_name (resolveUnlocked force_check api_door_status is_unlocked0))]) := by
  unfold update_status_channel attempt_edit
  rw [hh]
  simp [hname, Nat.not_le.mpr hq, alookup_aset_self, aset_aset_self]

/-- Defer path of `update_status_channel`: quota reached and no live
pending task, so a deferred task is created with the computed wait plus
the 10-second buffer, and the history is left untouched. -/
theorem upd_defer (base_name channel_key : String) (now : Int)
    (is_unlocked0 force_check : Bool) (api_door_status : Option Bool)
    (write_result : WriteResult) (st : MutState) (hist : List Int)
    (hname : st.channel_name ≠
      render_name base_name (resolveUnlocked force_check api_door_status is_unlocked0))
    (hh : alookup channel_key st.channel_update_history = some hist)
    (hq : MAX_UPDATES_PER_PERIOD ≤
      (hist.filter fun x => now - x < RATE_LIMIT_PERIOD).length)
    (hfree : ∀ t, alookup channel_key st.pending_channel_updates = some t → t.done = true) :
    update_status_channel base_name channel_key now is_unlocked0 force_check
        api_door_status write_result st =
      (MutState.mk st.channel_name st.channel_update_history
        (aset channel_key
          (DTask.mk
            (RATE_LIMIT_PERIOD -
              (now - pymin (hist.filter fun x => now - x < RATE_LIMIT_PERIOD)) + 10)
            (resolveUnlocked force_check api_door_status is_unlocked0) false)
          st.pending_channel_updates),
       [Ev.warnLog "Skipping immediate channel name update due to rate limiting",
        Ev.infoLog "Scheduling channel name update",
        Ev.createDelayedTask
          (RATE_LIMIT_PERIOD -
            (now - pymin (hist.filter fun x => now - x < RATE_LIMIT_PERIOD)) + 10)
          (resolveUnlocked force_check api_door_status is_unlocked0)]) := by
  unfold update_status_channel schedule_delayed_update
  rw [hh]
  have hfree2 : (match alookup channel_key st.pending_channel_updates with
      | some t => !t.done
      | none => false) = false := by
    cases hp : alookup channel_key st.pending_channel_updates with
    | none => rfl
    | some t => simp [hfree t hp]
  simp [hname, hq, hfree2]

/-- Quota-exceeded path reported by the write itself (HTTP 429): the call
time is appended to the pruned history and a deferred task is created
from the minimum of that list, when no live pending task exists. -/
theorem upd_429 (base_name channel_key : String) (now : Int)
    (is_unlocked0 force_check : Bool) (api_door_status : Option Bool) (st : MutState)
    (hist : List Int)
    (hname : st.channel_name ≠
      render_name base_name (resolveUnlocked force_check api_door_status is_unlocked0))
    (hh : alookup channel_key st.channel_update_history = some hist)
    (hq : (hist.filter fun x => now - x < RATE_LIMIT_PERIOD).length < MAX_UPDATES_PER_PERIOD)
    (hfree : ∀ t, alookup channel_key st.pending_channel_updates = some t → t.done = true) :
    update_status_channel base_name channel_key now is_unlocked0 force_check
        api_door_status WriteResult.rateLimited st =
      (MutState.mk st.channel_name
        (aset channel_key ((hist.filter fun x => now - x < RATE_LIMIT_PERIOD) ++ [now])
          st.channel_update_history)
        (aset channel_key
          (DTask.mk
            (RATE_LIMIT_PERIOD -
              (now - pymin ((hist.filter fun x => now - x < RATE_LIMIT_PERIOD) ++ [now])) + 10)
            (resolveUnlocked force_check api_door_status is_unlocked0) false)
          st.pending_channel_updates),
       [Ev.warnLog "Rate limit hit when updating channel name",
        Ev.infoLog "Scheduling channel name update",
        Ev.createDelayedTask
          (RATE_LIMIT_PERIOD -
            (now - pymin ((hist.filter fun x => now - x < RATE_LIMIT_PERIOD) ++ [now])) + 10)
          (resolveUnlocked force_check api_door_status is_unlocked0)]) := by
  unfold update_status_channel attempt_edit schedule_delayed_update
  rw [hh]
  have hfree2 : (match alookup channel_key st.pending_channel_updates with
      | some t => !t.done
      | none => false) = false := by
    cases hp : alookup channel_key st.pending_channel_updates with
    | none => rfl
    | some t => simp [hfree t hp]
  simp [hname, Nat.not_le.mpr hq, alookup_aset_self, aset_aset_self, hfree2]

/-- C5: whenever a quota check finds the pruned recent-update count at or
above the quota and a deferred retry is created, its wait is
`RATE_LIMIT_PERIOD - (now - oldest remaining entry) + 10`, with the oldest
entry taken over the history pruned to the rolling window; and on the
path where the write itself reports quota-exceeded, the list whose oldest
entry feeds the same formula is equal to its own pruning to
`[now - RATE_LIMIT_PERIOD, now]` — i.e. it too is pruned before the
check. -/
theorem c5_deferred_wait_formula (base_name channel_key : String) (now : Int)
    (is_unlocked0 force_check : Bool) (api_door_status : Option Bool) (st : MutState)
    (hist : List Int)
    (hname : st.channel_name ≠
      render_name base_name (resolveUnlocked force_check api_door_status is_unlocked0))
    (hh : alookup channel_key st.channel_update_history = some hist)
    (hfree : ∀ t, alookup channel_key st.pending_channel_updates = some t → t.done = true) :
    (MAX_UPDATES_PER_PERIOD ≤
        (hist.filter fun x => now - x < RATE_LIMIT_PERIOD).length →
      ∀ write_result,
        update_status_channel base_name channel_key now is_unlocked0 force_check
            api_door_status write_result st =
          (MutState.mk st.channel_name st.channel_update_history
            (aset channel_key
              (DTask.mk
                (RATE_LIMIT_PERIOD -
                  (now - pymin (hist.filter fun x => now - x < RATE_LIMIT_PERIOD)) + 10)
                (resolveUnlocked force_check api_door_status is_unlocked0) false)
              st.pending_channel_updates),
           [Ev.warnLog "Skipping immediate channel name update due to rate limiting",
            Ev.infoLog "Scheduling channel name update",
            Ev.createDelayedTask
              (RATE_LIMIT_PERIOD -
                (now - pymin (hist.filter fun x => now - x < RATE_LIMIT_PERIOD)) + 10)
              (resolveUnlocked force_check api_door_status is_unlocked0)])) ∧
    ((hist.filter fun x => now - x < RATE_LIMIT_PERIOD).length < MAX_UPDATES_PER_PERIOD →
      update_status_channel base_name channel_key now is_unlocked0 force_check
          api_door_status WriteResult.rateLimited st =
        (MutState.mk st.channel_name
          (aset channel_key ((hist.filter fun x => now - x < RATE_LIMIT_PERIOD) ++ [now])
            st.channel_update_history)
          (aset channel_key
            (DTask.mk
              (RATE_LIMIT_PERIOD -
                (now - pymin ((hist.filter fun x => now - x < RATE_LIMIT_PERIOD) ++ [now])) + 10)
              (resolveUnlocked force_check api_door_status is_unlocked0) false)
            st.pending_channel_updates),
         [Ev.warnLog "Rate limit hit when updating channel name",
          Ev.infoLog "Scheduling channel name update",
          Ev.createDelayedTask
            (RATE_LIMIT_PERIOD -
              (now - pymin ((hist.filter fun x => now - x < RATE_LIMIT_PERIOD) ++ [now])) + 10)
            (resolveUnlocked force_check api_door_status is_unlocked0)]) ∧
      ((hist.filter fun x => now - x < RATE_LIMIT_PERIOD) ++ [now]).filter
          (fun x => now - x < RATE_LIMIT_PERIOD) =
        (hist.filter fun x => now - x < RATE_LIMIT_PERIOD) ++ [now]) := by
  constructor
  · intro hq write_result
    exact upd_defer base_name channel_key now is_unlocked0 force_check api_door_status
      write_result st hist hname hh hq hfree
  · intro hq
    refine ⟨upd_429 base_name channel_key now is_unlocked0 force_check api_door_status
      st hist hname hh hq hfree, ?_⟩
    rw [List.filter_append, List.filter_filter]
    simp [RATE_LIMIT_PERIOD]

/-- C4: with quota 2 per 600-second window, three update requests for the
same key within one window — each asking for a label different from the
current one — yield exactly two immediate writes and exactly one deferred
task; when that task's delay elapses it performs exactly one further
write, using the door state `f` freshly re-read at fire time (via
`force_check`), not the state `u3` captured when the retry was enqueued. -/
theorem c4_three_requests_two_writes_one_retry
    (base_name channel_key c0 : String) (t1 t2 t3 : Int) (u1 u2 u3 f : Bool)
    (s1 s2 s3 s4 : MutState) (e1 e2 e3 e4 : List Ev)
    (h1 : render_name base_name u1 ≠ c0)
    (h2 : render_name base_name u2 ≠ render_name base_name u1)
    (h3 : render_name base_name u3 ≠ render_name base_name u2)
    (h4 : render_name base_name f ≠ render_name base_name u2)
    (ht12 : t1 ≤ t2) (ht23 : t2 ≤ t3) (hw : t3 - t1 < RATE_LIMIT_PERIOD)
    (hr1 : (s1, e1) = update_status_channel base_name channel_key t1 u1 false none
      WriteResult.success (MutState.mk c0 [] []))
    (hr2 : (s2, e2) = update_status_channel base_name channel_key t2 u2 false none
      WriteResult.success s1)
    (hr3 : (s3, e3) = update_status_channel base_name channel_key t3 u3 false none
      WriteResult.success s2)
    (hr4 : (s4, e4) = run_delayed_task base_name channel_key
      (t3 + (RATE_LIMIT_PERIOD - (t3 - t1) + 10)) u3 (some f) WriteResult.success false s3) :
    e1 = [Ev.editChannel (render_name base_name u1)] ∧
    e2 = [Ev.editChannel (render_name base_name u2)] ∧
    e3 = [Ev.warnLog "Skipping immediate channel name update due to rate limiting",
          Ev.infoLog "Scheduling channel name update",
          Ev.createDelayedTask (RATE_LIMIT_PERIOD - (t3 - t1) + 10) u3] ∧
    s3.pending_channel_updates =
      [(channel_key, DTask.mk (RATE_LIMIT_PERIOD - (t3 - t1) + 10) u3 false)] ∧
    e4 = [Ev.infoLog "Executing delayed channel name update",
          Ev.editChannel (render_name base_name f)] ∧
    s4.channel_name = render_name base_name f := by
  have hw6 : t3 - t1 < 600 := by simpa [RATE_LIMIT_PERIOD] using hw
  -- call 1: first write
  have E1 : update_status_channel base_name channel_key t1 u1 false none
      WriteResult.success (MutState.mk c0 [] []) =
      (MutState.mk (render_name base_name u1) [(channel_key, [t1])] [],
       [Ev.editChannel (render_name base_name u1)]) := by
    have h := upd_first_write base_name channel_key t1 u1 false none
      (MutState.mk c0 [] []) (Ne.symm h1) rfl
    simpa [aset, resolveUnlocked] using h
  rw [E1, Prod.mk.injEq] at hr1
  obtain ⟨hs1, he1⟩ := hr1
  subst hs1
  -- call 2: second write
  have ht21 : t2 - t1 < RATE_LIMIT_PERIOD := by simp only [RATE_LIMIT_PERIOD]; omega
  have E2 : update_status_channel base_name channel_key t2 u2 false none
      WriteResult.success (MutState.mk (render_name base_name u1) [(channel_key, [t1])] []) =
      (MutState.mk (render_name base_name u2) [(channel_key, [t1, t2])] [],
       [Ev.editChannel (render_name base_name u2)]) := by
    have h := upd_next_write base_name channel_key t2 u2 false none
      (MutState.mk (render_name base_name u1) [(channel_key, [t1])] []) [t1]
      (Ne.symm h2) (by simp [alookup])
      (by simp [List.filter, MAX_UPDATES_PER_PERIOD, ht21])
    simpa [aset, resolveUnlocked, List.filter, ht21] using h
  rw [E2, Prod.mk.injEq] at hr2
  obtain ⟨hs2, he2⟩ := hr2
  subst hs2
  -- call 3: deferred
  have ht31 : t3 - t1 < RATE_LIMIT_PERIOD := hw
  have ht32 : t3 - t2 < RATE_LIMIT_PERIOD := by simp only [RATE_LIMIT_PERIOD]; omega
  have hmin : pymin [t1, t2] = t1 := by simp [pymin, min_eq_left ht12]
  have E3 : update_status_channel base_name channel_key t3 u3 false none
      WriteResult.success (MutState.mk (render_name base_name u2) [(channel_key, [t1, t2])] []) =
      (MutState.mk (render_name base_name u2) [(channel_key, [t1, t2])]
        [(channel_key, DTask.mk (RATE_LIMIT_PERIOD - (t3 - t1) + 10) u3 false)],
       [Ev.warnLog "Skipping immediate channel name update due to rate limiting",
        Ev.infoLog "Scheduling channel name update",
        Ev.createDelayedTask (RATE_LIMIT_PERIOD - (t3 - t1) + 10) u3]) := by
    have h := upd_defer base_name channel_key t3 u3 false none WriteResult.success
      (MutState.mk (render_name base_name u2) [(channel_key, [t1, t2])] []) [t1, t2]
      (Ne.symm h3) (by simp [alookup])
      (by simp [List.filter, MAX_UPDATES_PER_PERIOD, ht31, ht32])
      (by intro t ht; simp [alookup] at ht)
    simpa [aset, resolveUnlocked, List.filter, ht31, ht32, hmin] using h
  rw [E3, Prod.mk.injEq] at hr3
  obtain ⟨hs3, he3⟩ := hr3
  subst hs3
  -- the deferred task fires with a freshly read state
  have hp1 : ¬(t3 + (RATE_LIMIT_PERIOD - (t3 - t1) + 10) - t1 < RATE_LIMIT_PERIOD) := by
    simp only [RATE_LIMIT_PERIOD]; omega
  have hfilt : List.filter
      (fun x => decide (t3 + (RATE_LIMIT_PERIOD - (t3 - t1) + 10) - x < RATE_LIMIT_PERIOD))
      [t1, t2] =
      List.filter
      (fun x => decide (t3 + (RATE_LIMIT_PERIOD - (t3 - t1) + 10) - x < RATE_LIMIT_PERIOD))
      [t2] := by
    simp [List.filter, hp1]
  have hq4 : (List.filter
      (fun x => decide (t3 + (RATE_LIMIT_PERIOD - (t3 - t1) + 10) - x < RATE_LIMIT_PERIOD))
      [t1, t2]).length < MAX_UPDATES_PER_PERIOD := by
    rw [hfilt]
    exact lt_of_le_of_lt (List.length_filter_le _ _) (by simp [MAX_UPDATES_PER_PERIOD])
  have E4 := upd_next_write base_name channel_key
    (t3 + (RATE_LIMIT_PERIOD - (t3 - t1) + 10)) u3 true (some f)
    (MutState.mk (render_name base_name u2) [(channel_key, [t1, t2])]
      [(channel_key, DTask.mk (RATE_LIMIT_PERIOD - (t3 - t1) + 10) u3 false)])
    [t1, t2] (Ne.symm h4) (by simp [alookup]) hq4
  rw [run_delayed_task, if_neg (by simp), E4] at hr4
  rw [Prod.mk.injEq] at hr4
  obtain ⟨hs4, he4⟩ := hr4
  refine ⟨he1, he2, he3, rfl, by simpa [resolveUnlocked] using he4, ?_⟩
  rw [hs4]
  simp [delayed_task_finally, mark_task_done, alookup, aset, resolveUnlocked]

/-- Witness for C5: quota branch at history [200, 300] and time 700
(wait 600 - (700 - 200) + 10 = 110), and write-reported-429 branch at
empty pruned history (wait 600 - 0 + 10 = 610). -/
theorem c5_deferred_wait_formula_witness :
    update_status_channel "doors" "k" 700 true false none WriteResult.success
        (MutState.mk "doors-🔐" [("k", [200, 300])] []) =
      (MutState.mk "doors-🔐" [("k", [200, 300])] [("k", DTask.mk 110 true false)],
       [Ev.warnLog "Skipping immediate channel name update due to rate limiting",
        Ev.infoLog "Scheduling channel name update",
        Ev.createDelayedTask 110 true]) ∧
    update_status_channel "doors" "k" 700 true false none WriteResult.rateLimited
        (MutState.mk "doors-🔐" [("k", [])] []) =
      (MutState.mk "doors-🔐" [("k", [700])] [("k", DTask.mk 610 true false)],
       [Ev.warnLog "Rate limit hit when updating channel name",
        Ev.infoLog "Scheduling channel name update",
        Ev.createDelayedTask 610 true]) := by
  constructor
  · have h := (c5_deferred_wait_formula "doors" "k" 700 true false none
      (MutState.mk "doors-🔐" [("k", [200, 300])] []) [200, 300]
      (by decide) (by decide) (by intro t ht; simp [alookup] at ht)).1
      (by decide) WriteResult.success
    simpa [aset, pymin, RATE_LIMIT_PERIOD, resolveUnlocked] using h
  · have h := ((c5_deferred_wait_formula "doors" "k" 700 true false none
      (MutState.mk "doors-🔐" [("k", [])] []) []
      (by decide) (by decide) (by intro t ht; simp [alookup] at ht)).2
      (by decide)).1
    simpa [aset, pymin, RATE_LIMIT_PERIOD, resolveUnlocked] using h

/-- Witness for C4 at times 0, 1, 2 (wait 600 - 2 + 10 = 608; fire at
610). -/
theorem c4_three_requests_two_writes_one_retry_witness :
    [Ev.editChannel "doors-🟢"] = [Ev.editChannel (render_name "doors" true)] ∧
    [Ev.editChannel "doors-🔐"] = [Ev.editChannel (render_name "doors" false)] ∧
    [Ev.warnLog "Skipping immediate channel name update due to rate limiting",
     Ev.infoLog "Scheduling channel name update",
     Ev.createDelayedTask 608 true] =
      [Ev.warnLog "Skipping immediate channel name update due to rate limiting",
       Ev.infoLog "Scheduling channel name update",
       Ev.createDelayedTask (RATE_LIMIT_PERIOD - ((2 : Int) - 0) + 10) true] ∧
    (MutState.mk "doors-🔐" [("k", [0, 1])]
        [("k", DTask.mk 608 true false)]).pending_channel_updates =
      [("k", DTask.mk (RATE_LIMIT_PERIOD - ((2 : Int) - 0) + 10) true false)] ∧
    [Ev.infoLog "Executing delayed channel name update", Ev.editChannel "doors-🟢"] =
      [Ev.infoLog "Executing delayed channel name update",
       Ev.editChannel (render_name "doors" true)] ∧
    (MutState.mk "doors-🟢" [("k", [610])]
        [("k", DTask.mk 608 true true)]).channel_name = render_name "doors" true :=
  c4_three_requests_two_writes_one_retry "doors" "k" "x" 0 1 2 true false true true
    (MutState.mk "doors-🟢" [("k", [0])] [])
    (MutState.mk "doors-🔐" [("k", [0, 1])] [])
    (MutState.mk "doors-🔐" [("k", [0, 1])] [("k", DTask.mk 608 true false)])
    (MutState.mk "doors-🟢" [("k", [610])] [("k", DTask.mk 608 true true)])
    [Ev.editChannel "doors-🟢"] [Ev.editChannel "doors-🔐"]
    [Ev.warnLog "Skipping immediate channel name update due to rate limiting",
     Ev.infoLog "Scheduling channel name update",
     Ev.createDelayedTask 608 true]
    [Ev.infoLog "Executing delayed channel name update", Ev.editChannel "doors-🟢"]
    (by decide) (by decide) (by decide) (by decide) (by decide) (by decide) (by decide)
    (by decide) (by decide) (by decide) (by decide)

/-! ## Time-input parser -/

/-- Python regex `\d` over the ASCII inputs in scope. -/
def isPyDigit (c : Char) : Bool := 48 ≤ c.toNat && c.toNat ≤ 57

/-- Python regex `\s` over the ASCII inputs in scope. -/
def isPySpace (c : Char) : Bool :=
  c.toNat = 32 || c.toNat = 9 || c.toNat = 10 || c.toNat = 13 || c.toNat = 11 || c.toNat = 12

/-- Python `str.lower()` on one ASCII character. -/
def pyToLower (c : Char) : Char :=
  if 65 ≤ c.toNat ∧ c.toNat ≤ 90 then Char.ofNat (c.toNat + 32) else c

def toLowerList (l : List Char) : List Char := l.map pyToLower

/-- Value of a decimal digit string. -/
def digitsVal (ds : List Char) : Nat :=
  ds.foldl (fun a c => 10 * a + (c.toNat - 48)) 0

/-- Python `re.search` for the pattern digits, optional whitespace, then `unit`
(the `(\d+)\s*h` and `(\d+)\s*m` searches of bot.py 857, 862): scan start
positions left to right; at a digit, the greedy digit run and whitespace
run are maximal, and shrinking them can never help (a digit follows a
shorter digit run and a non-`unit` non-space follows the space run), so
the position matches exactly when the maximal runs are followed by
`unit`. -/
def searchNum (unit : Char) : List Char → Option Nat
  | [] => none
  | c :: rest =>
    if isPyDigit c then
      match List.dropWhile isPySpace (List.dropWhile isPyDigit (c :: rest)) with
      | u2 :: _ =>
        if u2 = unit then some (digitsVal (List.takeWhile isPyDigit (c :: rest)))
        else searchNum unit rest
      | [] => searchNum unit rest
    else searchNum unit rest

def startsWithPat : List Char → List Char → Bool
  | [], _ => true
  | _ :: _, [] => false
  | a :: as2, b :: bs => a = b && startsWithPat as2 bs

/-- Python substring test `pat in s`. -/
def containsSub (pat : List Char) : List Char → Bool
  | [] => pat.isEmpty
  | c :: rest => startsWithPat pat (c :: rest) || containsSub pat rest

/-- The test `any(x in input_str.lower() for x in ["am", "pm"])` (bot.py 876). -/
def containsAmPm (l : List Char) : Bool :=
  containsSub ['a', 'm'] l || containsSub ['p', 'm'] l

/-- Python `str.split(":")`. -/
def splitOnColon : List Char → List (List Char)
  | [] => [[]]
  | c :: rest =>
    if c = ':' then [] :: splitOnColon rest
    else
      match splitOnColon rest with
      | [] => [[c]]
      | p :: ps => (c :: p) :: ps

def pyStrip (l : List Char) : List Char :=
  ((l.dropWhile isPySpace).reverse.dropWhile isPySpace).reverse

/-- Python `int(str)` over the ASCII inputs in scope: strip whitespace,
optional sign, decimal digits; anything else raises ValueError (`none`). -/
def pyInt (l : List Char) : Option Int :=
  let t := pyStrip l
  if t ≠ [] ∧ t.all isPyDigit then some ((digitsVal t : Int))
  else
    match t with
    | '-' :: ds =>
      if ds ≠ [] ∧ ds.all isPyDigit then some (-(digitsVal ds : Int)) else none
    | '+' :: ds =>
      if ds ≠ [] ∧ ds.all isPyDigit then some ((digitsVal ds : Int)) else none
    | _ => none

/-- Embedding of `now_naive.replace(hour=h, minute=m, second=0, microsecond=0)` on the
integer-seconds timeline: `datetime.replace` validates its fields and
raises ValueError when out of range (`none`). -/
def replaceTime (nowDay hour minute : Int) : Option Int :=
  if 0 ≤ hour ∧ hour ≤ 23 ∧ 0 ≤ minute ∧ minute ≤ 59 then
    some (nowDay * 86400 + hour * 3600 + minute * 60)
  else none

/-- Embedding of `parse_time_input` (bot.py 846-951) on the integer-seconds timeline,
with `now = nowDay * 86400 + nowSod` and `0 ≤ nowSod < 86400`.
`dateutil_fuzzy` abstracts `dateutil.parser.parse(input_str, fuzzy=True)`
on the branch for inputs carrying an am/pm marker (`none` models its
ValueError); timezone localization is the identity on this single
timeline; the quoted examples inside the error strings are kept without
their quote characters.  Returns the `(datetime, error_message)` pair. -/
def parse_time_input (dateutil_fuzzy : List Char → Option Int)
    (nowDay nowSod : Int) (input_str : List Char) : Option Int × Option String :=
  let lower := toLowerList input_str
  let hours : Nat := (searchNum 'h' lower).getD 0
  let minutes : Nat := (searchNum 'm' lower).getD 0
  if hours = 0 ∧ minutes = 0 then
    let now_naive := nowDay * 86400 + nowSod
    if containsAmPm lower then
      match dateutil_fuzzy input_str with
      | none =>
        (none, some "Invalid time format. Please use format like 1:30, 2h, or 30m")
      | some t0 =>
        let parsed := if t0 < now_naive then t0 + 86400 else t0
        if parsed - now_naive < 120 then (some (now_naive + 120), none)
        else (some parsed, none)
    else
      match splitOnColon input_str with
      | [p1, p2] =>
        match pyInt p1, pyInt p2 with
        | some hour, some minute =>
          if hour < 0 ∨ 23 < hour ∨ minute < 0 ∨ 59 < minute then
            (none, some "Invalid time. Hours must be 0-23 and minutes must be 0-59")
          else
            let hour_12 := if 12 < hour then hour - 12 else if hour = 0 then 12 else hour
            match replaceTime nowDay hour_12 minute with
            | none =>
              (none, some "Invalid time format. Please use format like 1:30, 2h, or 30m")
            | some am_try =>
              match replaceTime nowDay (hour_12 + 12) minute with
              | none =>
                (none, some "Invalid time format. Please use format like 1:30, 2h, or 30m")
              | some pm_try =>
                let am_base := if hour_12 = 12 then nowDay * 86400 + minute * 60 else am_try
                let pm_base :=
                  if hour_12 = 12 then nowDay * 86400 + 12 * 3600 + minute * 60 else pm_try
                let am_time := if am_base < now_naive then am_base + 86400 else am_base
                let pm_time := if pm_base < now_naive then pm_base + 86400 else pm_base
                let parsed := if am_time < pm_time then am_time else pm_time
                if parsed - now_naive < 120 then (some (now_naive + 120), none)
                else (some parsed, none)
        | _, _ =>
          (none, some "Invalid time format. Please use format like 1:30, 2h, or 30m")
      | _ =>
        (none, some "Invalid time format. Please use format like 1:30, 2h, or 30m")
  else
    let now := nowDay * 86400 + nowSod
    let future := now + 3600 * (hours : Int) + 60 * (minutes : Int)
    if future - now < 120 then (some (now + 120), none)
    else (some future, none)

theorem space_not_digit {c : Char} (h : isPySpace c = true) : isPyDigit c = false := by
  simp only [isPySpace, Bool.or_eq_true, decide_eq_true_eq] at h
  simp only [isPyDigit, Bool.and_eq_true, decide_eq_true_eq, Bool.and_eq_false_iff,
    decide_eq_false_iff_not, not_le]
  omega

theorem digit_ne_char {c u : Char} (hc : isPyDigit c = true) (hu : isPyDigit u = false) :
    c ≠ u := by
  intro he
  rw [he, hu] at hc
  cases hc

theorem space_ne_char {c u : Char} (hc : isPySpace c = true) (hu : isPySpace u = false) :
    c ≠ u := by
  intro he
  rw [he, hu] at hc
  cases hc

theorem head_mem_of_eq {α : Type} {l : List α} {x : α} (h : l.head? = some x) : x ∈ l := by
  cases l with
  | nil => cases h
  | cons a t =>
    simp only [List.head?_cons, Option.some.injEq] at h
    exact h ▸ List.mem_cons_self a t

/-- takeWhile and dropWhile across a block that wholly satisfies the
predicate, followed by a remainder whose head fails it. -/
theorem takeWhile_dropWhile_block {α : Type} (p : α → Bool) (ds r : List α)
    (hds : ∀ x ∈ ds, p x = true)
    (hr : ∀ x, r.head? = some x → p x = false) :
    (ds ++ r).takeWhile p = ds ∧ (ds ++ r).dropWhile p = r := by
  induction ds with
  | nil =>
    cases r with
    | nil => simp
    | cons x xs =>
      have hx := hr x rfl
      simp [List.takeWhile_cons, List.dropWhile_cons, hx]
  | cons d ds2 ih =>
    have hd := hds d (List.mem_cons_self d ds2)
    have ih2 := ih (fun x hx => hds x (List.mem_cons_of_mem d hx))
    simp [List.takeWhile_cons, List.dropWhile_cons, hd, ih2.1, ih2.2]

/-- Unfolding of `searchNum` at a cons cell. -/
theorem searchNum_cons (u c : Char) (rest : List Char) :
    searchNum u (c :: rest) =
      if isPyDigit c then
        match List.dropWhile isPySpace (List.dropWhile isPyDigit (c :: rest)) with
        | u2 :: _ =>
          if u2 = u then some (digitsVal (List.takeWhile isPyDigit (c :: rest)))
          else searchNum u rest
        | [] => searchNum u rest
      else searchNum u rest := by
  rw [searchNum]

/-- A match for `unit` can never start inside a run of non-digits. -/
theorem searchNum_skip_nondigits (u : Char) (p r : List Char)
    (hp : ∀ x ∈ p, isPyDigit x = false) :
    searchNum u (p ++ r) = searchNum u r := by
  induction p with
  | nil => rfl
  | cons c cs ih =>
    have hc := hp c (List.mem_cons_self c cs)
    rw [List.cons_append, searchNum_cons, if_neg (by simp [hc])]
    exact ih (fun x hx => hp x (List.mem_cons_of_mem c hx))

/-- A match for `unit` can never start inside a digit block that is
followed (after optional whitespace) by a character that is neither a
digit, nor whitespace, nor `unit` itself. -/
theorem searchNum_skip_digit_block (u : Char) (ds ws : List Char) (c : Char) (t : List Char)
    (hds : ∀ x ∈ ds, isPyDigit x = true)
    (hws : ∀ x ∈ ws, isPySpace x = true)
    (hcd : isPyDigit c = false) (hcs : isPySpace c = false) (hcu : c ≠ u) :
    searchNum u (ds ++ ws ++ c :: t) = searchNum u (c :: t) := by
  induction ds with
  | nil =>
    have hnd : ∀ x ∈ ws, isPyDigit x = false := fun x hx => space_not_digit (hws x hx)
    simpa using searchNum_skip_nondigits u ws (c :: t) hnd
  | cons d ds2 ih =>
    have hd := hds d (List.mem_cons_self d ds2)
    have hds2 : ∀ x ∈ ds2, isPyDigit x = true := fun x hx => hds x (List.mem_cons_of_mem d hx)
    have hr : ∀ x, (ws ++ c :: t).head? = some x → isPyDigit x = false := by
      intro x hx
      cases ws with
      | nil =>
        simp only [List.nil_append, List.head?_cons, Option.some.injEq] at hx
        exact hx ▸ hcd
      | cons w ws2 =>
        simp only [List.cons_append, List.head?_cons, Option.some.injEq] at hx
        exact hx ▸ space_not_digit (hws w (List.mem_cons_self w ws2))
    have hblock := takeWhile_dropWhile_block isPyDigit (d :: ds2) (ws ++ c :: t) hds hr
    have hr2 : ∀ x, (c :: t).head? = some x → isPySpace x = false := by
      intro x hx
      simp only [List.head?_cons, Option.some.injEq] at hx
      exact hx ▸ hcs
    have hblock2 := takeWhile_dropWhile_block isPySpace ws (c :: t) hws hr2
    have hdrop : List.dropWhile isPySpace
        (List.dropWhile isPyDigit (d :: (ds2 ++ (ws ++ c :: t)))) = c :: t := by
      have h1 : d :: (ds2 ++ (ws ++ c :: t)) = (d :: ds2) ++ (ws ++ c :: t) := by simp
      rw [h1, hblock.2, hblock2.2]
    have hfin := ih hds2
    rw [List.append_assoc] at hfin
    have hlist : (d :: ds2) ++ ws ++ c :: t = d :: (ds2 ++ (ws ++ c :: t)) := by simp
    rw [hlist, searchNum_cons, if_pos (by simp [hd]), hdrop]
    simp [hcu, hfin]

/-- The leftmost match: a nonempty digit block, optional whitespace, then
`unit` itself. -/
theorem searchNum_found (u : Char) (ds ws t : List Char)
    (hds : ∀ x ∈ ds, isPyDigit x = true) (hne : ds ≠ [])
    (hws : ∀ x ∈ ws, isPySpace x = true)
    (hud : isPyDigit u = false) (hus : isPySpace u = false) :
    searchNum u (ds ++ ws ++ u :: t) = some (digitsVal ds) := by
  cases ds with
  | nil => exact absurd rfl hne
  | cons d ds2 =>
    have hd := hds d (List.mem_cons_self d ds2)
    have hr : ∀ x, (ws ++ u :: t).head? = some x → isPyDigit x = false := by
      intro x hx
      cases ws with
      | nil =>
        simp only [List.nil_append, List.head?_cons, Option.some.injEq] at hx
        exact hx ▸ hud
      | cons w ws2 =>
        simp only [List.cons_append, List.head?_cons, Option.some.injEq] at hx
        exact hx ▸ space_not_digit (hws w (List.mem_cons_self w ws2))
    have hblock := takeWhile_dropWhile_block isPyDigit (d :: ds2) (ws ++ u :: t) hds hr
    have hr2 : ∀ x, (u :: t).head? = some x → isPySpace x = false := by
      intro x hx
      simp only [List.head?_cons, Option.some.injEq] at hx
      exact hx ▸ hus
    have hblock2 := takeWhile_dropWhile_block isPySpace ws (u :: t) hws hr2
    have hdrop : List.dropWhile isPySpace
        (List.dropWhile isPyDigit (d :: (ds2 ++ (ws ++ u :: t)))) = u :: t := by
      have h1 : d :: (ds2 ++ (ws ++ u :: t)) = (d :: ds2) ++ (ws ++ u :: t) := by simp
      rw [h1, hblock.2, hblock2.2]
    have htake : List.takeWhile isPyDigit (d :: (ds2 ++ (ws ++ u :: t))) = d :: ds2 := by
      have h1 : d :: (ds2 ++ (ws ++ u :: t)) = (d :: ds2) ++ (ws ++ u :: t) := by simp
      rw [h1, hblock.1]
    have hlist : (d :: ds2) ++ ws ++ u :: t = d :: (ds2 ++ (ws ++ u :: t)) := by simp
    rw [hlist, searchNum_cons, if_pos (by simp [hd]), hdrop]
    simp [htake]

/-- No occurrence of `unit` at all means no match. -/
theorem searchNum_none (u : Char) (l : List Char) (h : ∀ c ∈ l, c ≠ u) :
    searchNum u l = none := by
  induction l with
  | nil => rfl
  | cons c rest ih =>
    have hrest : ∀ x ∈ rest, x ≠ u := fun x hx => h x (List.mem_cons_of_mem c hx)
    by_cases hd : isPyDigit c
    · rw [searchNum_cons, if_pos (by simp [hd])]
      cases h2 : List.dropWhile isPySpace (List.dropWhile isPyDigit (c :: rest)) with
      | nil => exact ih hrest
      | cons u2 tl =>
        have hmem : u2 ∈ c :: rest := by
          have h3 : u2 ∈ List.dropWhile isPySpace (List.dropWhile isPyDigit (c :: rest)) := by
            rw [h2]; exact List.mem_cons_self u2 tl
          have h4 : u2 ∈ List.dropWhile isPyDigit (c :: rest) :=
            (List.dropWhile_sublist _).mem h3
          exact (List.dropWhile_sublist _).mem h4
        simp [h u2 hmem, ih hrest]
    · rw [searchNum_cons, if_neg (by simp [hd])]
      exact ih hrest

theorem pyToLower_fix {c : Char} (h : c.toNat < 65 ∨ 90 < c.toNat) : pyToLower c = c := by
  unfold pyToLower
  rw [if_neg (by omega)]

theorem toLowerList_fix (l : List Char) (h : ∀ c ∈ l, c.toNat < 65 ∨ 90 < c.toNat) :
    toLowerList l = l := by
  induction l with
  | nil => rfl
  | cons c rest ih =>
    have hc := pyToLower_fix (h c (List.mem_cons_self c rest))
    have hr := ih (fun x hx => h x (List.mem_cons_of_mem c hx))
    simp only [toLowerList, List.map_cons, hc]
    simp only [toLowerList] at hr
    rw [hr]

theorem digit_below_upper {c : Char} (h : isPyDigit c = true) : c.toNat < 65 ∨ 90 < c.toNat := by
  simp only [isPyDigit, Bool.and_eq_true, decide_eq_true_eq] at h
  omega

theorem space_below_upper {c : Char} (h : isPySpace c = true) : c.toNat < 65 ∨ 90 < c.toNat := by
  simp only [isPySpace, Bool.or_eq_true, decide_eq_true_eq] at h
  omega

theorem splitOnColon_no_colon (l : List Char) (h : ∀ c ∈ l, c ≠ ':') :
    splitOnColon l = [l] := by
  induction l with
  | nil => rfl
  | cons c rest ih =>
    have hr := ih (fun x hx => h x (List.mem_cons_of_mem c hx))
    rw [splitOnColon, if_neg (h c (List.mem_cons_self c rest)), hr]

theorem splitOnColon_once (p1 p2 : List Char)
    (h1 : ∀ c ∈ p1, c ≠ ':') (h2 : ∀ c ∈ p2, c ≠ ':') :
    splitOnColon (p1 ++ ':' :: p2) = [p1, p2] := by
  induction p1 with
  | nil =>
    rw [List.nil_append, splitOnColon, if_pos rfl, splitOnColon_no_colon p2 h2]
  | cons c cs ih =>
    have hr := ih (fun x hx => h1 x (List.mem_cons_of_mem c hx))
    rw [List.cons_append, splitOnColon, if_neg (h1 c (List.mem_cons_self c cs)), hr]

theorem digit_not_space {c : Char} (h : isPyDigit c = true) : isPySpace c = false := by
  cases hs : isPySpace c
  · rfl
  · rw [space_not_digit hs] at h
    cases h

theorem dropWhile_eq_self_of_head {α : Type} (p : α → Bool) (l : List α)
    (h : ∀ x, l.head? = some x → p x = false) : l.dropWhile p = l := by
  cases l with
  | nil => rfl
  | cons a t => rw [List.dropWhile_cons, if_neg (by simp [h a rfl])]

theorem pyStrip_digits (ds : List Char) (hds : ∀ c ∈ ds, isPyDigit c = true) :
    pyStrip ds = ds := by
  have h1 : ds.dropWhile isPySpace = ds :=
    dropWhile_eq_self_of_head _ _
      (fun x hx => digit_not_space (hds x (head_mem_of_eq hx)))
  have h2 : ds.reverse.dropWhile isPySpace = ds.reverse :=
    dropWhile_eq_self_of_head _ _
      (fun x hx => digit_not_space (hds x (List.mem_reverse.mp (head_mem_of_eq hx))))
  unfold pyStrip
  rw [h1, h2, List.reverse_reverse]

theorem pyInt_digits (ds : List Char) (hne : ds ≠ []) (hds : ∀ c ∈ ds, isPyDigit c = true) :
    pyInt ds = some ((digitsVal ds : Int)) := by
  unfold pyInt
  rw [pyStrip_digits ds hds,
    if_pos ⟨hne, by rw [List.all_eq_true]; exact fun x hx => hds x hx⟩]

theorem startsWithPat_eq_head {x c : Char} {p rest : List Char}
    (h : startsWithPat (x :: p) (c :: rest) = true) : x = c := by
  simp only [startsWithPat, Bool.and_eq_true, decide_eq_true_eq] at h
  exact h.1

theorem containsSub_head_mem {x : Char} {p l : List Char}
    (h : containsSub (x :: p) l = true) : x ∈ l := by
  induction l with
  | nil => simp [containsSub, List.isEmpty] at h
  | cons c rest ih =>
    rw [containsSub] at h
    simp only [Bool.or_eq_true] at h
    rcases h with h | h
    · rw [startsWithPat_eq_head h]
      exact List.mem_cons_self c rest
    · exact List.mem_cons_of_mem c (ih h)

theorem containsAmPm_eq_false (l : List Char) (ha : 'a' ∉ l) (hp : 'p' ∉ l) :
    containsAmPm l = false := by
  unfold containsAmPm
  have h1 : containsSub ['a', 'm'] l = false := by
    cases hc : containsSub ['a', 'm'] l
    · rfl
    · exact absurd (containsSub_head_mem hc) ha
  have h2 : containsSub ['p', 'm'] l = false := by
    cases hc : containsSub ['p', 'm'] l
    · rfl
    · exact absurd (containsSub_head_mem hc) hp
  rw [h1, h2]
  rfl

/-- The relative-duration branch of `parse_time_input` (bot.py 938-948):
whenever the two unit searches produce `h` hours and `m` minutes with at
least one nonzero, the result is now plus the duration, clamped to two
minutes. -/
theorem parse_time_relative (dp : List Char → Option Int) (nowDay nowSod : Int)
    (s : List Char) (h m : Nat)
    (hH : (searchNum 'h' (toLowerList s)).getD 0 = h)
    (hM : (searchNum 'm' (toLowerList s)).getD 0 = m)
    (hnz : ¬(h = 0 ∧ m = 0)) :
    parse_time_input dp nowDay nowSod s =
      (some (nowDay * 86400 + nowSod + max (3600 * (h : Int) + 60 * (m : Int)) 120), none) := by
  simp only [parse_time_input]
  rw [hH, hM, if_neg hnz]
  by_cases hc : (3600 * (h : Int) + 60 * (m : Int)) < 120
  · rw [if_pos (by omega), max_eq_right (le_of_lt hc)]
  · rw [if_neg (by omega), max_eq_left (by omega)]
    have harith : nowDay * 86400 + nowSod + 3600 * (h : Int) + 60 * (m : Int) =
        nowDay * 86400 + nowSod + (3600 * (h : Int) + 60 * (m : Int)) := by ring
    rw [harith]

theorem chars_ok_append {l1 l2 : List Char}
    (h1 : ∀ c ∈ l1, c.toNat < 65 ∨ 90 < c.toNat)
    (h2 : ∀ c ∈ l2, c.toNat < 65 ∨ 90 < c.toNat) :
    ∀ c ∈ l1 ++ l2, c.toNat < 65 ∨ 90 < c.toNat := by
  intro c hc
  rcases List.mem_append.mp hc with h | h
  · exact h1 c h
  · exact h2 c h

theorem chars_ok_digits {l : List Char} (h : ∀ c ∈ l, isPyDigit c = true) :
    ∀ c ∈ l, c.toNat < 65 ∨ 90 < c.toNat :=
  fun c hc => digit_below_upper (h c hc)

theorem chars_ok_spaces {l : List Char} (h : ∀ c ∈ l, isPySpace c = true) :
    ∀ c ∈ l, c.toNat < 65 ∨ 90 < c.toNat :=
  fun c hc => space_below_upper (h c hc)

theorem chars_ok_single {u : Char} (h : u.toNat < 65 ∨ 90 < u.toNat) :
    ∀ c ∈ [u], c.toNat < 65 ∨ 90 < c.toNat := by
  intro c hc
  rw [List.mem_singleton.mp hc]
  exact h

/-- The well-formed relative-duration inputs of the claim: an hour count,
a minute count, or both in either order, each written as a nonempty digit
string optionally followed by whitespace before its unit letter, with
optional whitespace between the two groups. -/
inductive WellFormedRel : List Char → Nat → Nat → Prop where
  | hOnly (hs ws : List Char) (hds : ∀ c ∈ hs, isPyDigit c = true) (hne : hs ≠ [])
      (hws : ∀ c ∈ ws, isPySpace c = true) :
      WellFormedRel (hs ++ ws ++ ['h']) (digitsVal hs) 0
  | mOnly (ms ws : List Char) (hds : ∀ c ∈ ms, isPyDigit c = true) (hne : ms ≠ [])
      (hws : ∀ c ∈ ws, isPySpace c = true) :
      WellFormedRel (ms ++ ws ++ ['m']) 0 (digitsVal ms)
  | hThenM (hs ws1 sep ms ws2 : List Char)
      (hdh : ∀ c ∈ hs, isPyDigit c = true) (hneh : hs ≠ [])
      (hw1 : ∀ c ∈ ws1, isPySpace c = true) (hsep : ∀ c ∈ sep, isPySpace c = true)
      (hdm : ∀ c ∈ ms, isPyDigit c = true) (hnem : ms ≠ [])
      (hw2 : ∀ c ∈ ws2, isPySpace c = true) :
      WellFormedRel (hs ++ ws1 ++ 'h' :: (sep ++ ms ++ ws2 ++ ['m']))
        (digitsVal hs) (digitsVal ms)
  | mThenH (ms ws1 sep hs ws2 : List Char)
      (hdm : ∀ c ∈ ms, isPyDigit c = true) (hnem : ms ≠ [])
      (hw1 : ∀ c ∈ ws1, isPySpace c = true) (hsep : ∀ c ∈ sep, isPySpace c = true)
      (hdh : ∀ c ∈ hs, isPyDigit c = true) (hneh : hs ≠ [])
      (hw2 : ∀ c ∈ ws2, isPySpace c = true) :
      WellFormedRel (ms ++ ws1 ++ 'm' :: (sep ++ hs ++ ws2 ++ ['h']))
        (digitsVal hs) (digitsVal ms)

/-- C6: every well-formed relative-duration input with at least one
nonzero count parses to now plus the requested hours and minutes, clamped
so the result is at least two minutes after now. -/
theorem c6_relative_duration (dp : List Char → Option Int) (nowDay nowSod : Int)
    (s : List Char) (h m : Nat) (hwf : WellFormedRel s h m) (hnz : ¬(h = 0 ∧ m = 0)) :
    parse_time_input dp nowDay nowSod s =
      (some (nowDay * 86400 + nowSod + max (3600 * (h : Int) + 60 * (m : Int)) 120), none) := by
  cases hwf with
  | hOnly hs ws hds hne hws =>
    have hlow : toLowerList (hs ++ ws ++ ['h']) = hs ++ ws ++ ['h'] :=
      toLowerList_fix _ (chars_ok_append
        (chars_ok_append (chars_ok_digits hds) (chars_ok_spaces hws))
        (chars_ok_single (by decide)))
    have hH : searchNum 'h' (hs ++ ws ++ 'h' :: ([] : List Char)) = some (digitsVal hs) :=
      searchNum_found 'h' hs ws [] hds hne hws (by decide) (by decide)
    have hM : searchNum 'm' (hs ++ ws ++ ['h']) = none := by
      apply searchNum_none
      intro c hc
      rcases List.mem_append.mp hc with h1 | h1
      · rcases List.mem_append.mp h1 with h2 | h2
        · exact digit_ne_char (hds c h2) (by decide)
        · exact space_ne_char (hws c h2) (by decide)
      · rw [List.mem_singleton.mp h1]; decide
    exact parse_time_relative dp nowDay nowSod _ _ _
      (by rw [hlow]
          rw [show hs ++ ws ++ ['h'] = hs ++ ws ++ 'h' :: ([] : List Char) from rfl, hH]
          rfl)
      (by rw [hlow, hM]; rfl) hnz
  | mOnly ms ws hds hne hws =>
    have hlow : toLowerList (ms ++ ws ++ ['m']) = ms ++ ws ++ ['m'] :=
      toLowerList_fix _ (chars_ok_append
        (chars_ok_append (chars_ok_digits hds) (chars_ok_spaces hws))
        (chars_ok_single (by decide)))
    have hM : searchNum 'm' (ms ++ ws ++ 'm' :: ([] : List Char)) = some (digitsVal ms) :=
      searchNum_found 'm' ms ws [] hds hne hws (by decide) (by decide)
    have hH : searchNum 'h' (ms ++ ws ++ ['m']) = none := by
      apply searchNum_none
      intro c hc
      rcases List.mem_append.mp hc with h1 | h1
      · rcases List.mem_append.mp h1 with h2 | h2
        · exact digit_ne_char (hds c h2) (by decide)
        · exact space_ne_char (hws c h2) (by decide)
      · rw [List.mem_singleton.mp h1]; decide
    exact parse_time_relative dp nowDay nowSod _ _ _
      (by rw [hlow, hH]; rfl)
      (by rw [hlow]
          rw [show ms ++ ws ++ ['m'] = ms ++ ws ++ 'm' :: ([] : List Char) from rfl, hM]
          rfl) hnz
  | hThenM hs ws1 sep ms ws2 hdh hneh hw1 hsep hdm hnem hw2 =>
    have hlow : toLowerList (hs ++ ws1 ++ 'h' :: (sep ++ ms ++ ws2 ++ ['m'])) =
        hs ++ ws1 ++ 'h' :: (sep ++ ms ++ ws2 ++ ['m']) := by
      apply toLowerList_fix
      apply chars_ok_append (chars_ok_append (chars_ok_digits hdh) (chars_ok_spaces hw1))
      intro c hc
      rcases List.mem_cons.mp hc with h1 | h1
      · rw [h1]; decide
      rcases List.mem_append.mp h1 with h2 | h2
      · rcases List.mem_append.mp h2 with h3 | h3
        · rcases List.mem_append.mp h3 with h4 | h4
          · exact space_below_upper (hsep c h4)
          · exact digit_below_upper (hdm c h4)
        · exact space_below_upper (hw2 c h3)
      · rw [List.mem_singleton.mp h2]; decide
    have hH : searchNum 'h' (hs ++ ws1 ++ 'h' :: (sep ++ ms ++ ws2 ++ ['m'])) =
        some (digitsVal hs) :=
      searchNum_found 'h' hs ws1 (sep ++ ms ++ ws2 ++ ['m']) hdh hneh hw1
        (by decide) (by decide)
    have hM : searchNum 'm' (hs ++ ws1 ++ 'h' :: (sep ++ ms ++ ws2 ++ ['m'])) =
        some (digitsVal ms) := by
      rw [searchNum_skip_digit_block 'm' hs ws1 'h' (sep ++ ms ++ ws2 ++ ['m'])
        hdh hw1 (by decide) (by decide) (by decide)]
      have e1 : searchNum 'm' ('h' :: (sep ++ ms ++ ws2 ++ ['m'])) =
          searchNum 'm' (sep ++ ms ++ ws2 ++ ['m']) :=
        searchNum_skip_nondigits 'm' ['h'] (sep ++ ms ++ ws2 ++ ['m'])
          (by intro x hx; rw [List.mem_singleton.mp hx]; decide)
      rw [e1]
      have hassoc : sep ++ ms ++ ws2 ++ ['m'] = sep ++ (ms ++ ws2 ++ ['m']) := by simp
      rw [hassoc, searchNum_skip_nondigits 'm' sep (ms ++ ws2 ++ ['m'])
        (fun x hx => space_not_digit (hsep x hx))]
      rw [show ms ++ ws2 ++ ['m'] = ms ++ ws2 ++ 'm' :: ([] : List Char) from rfl]
      exact searchNum_found 'm' ms ws2 [] hdm hnem hw2 (by decide) (by decide)
    exact parse_time_relative dp nowDay nowSod _ _ _
      (by rw [hlow, hH]; rfl) (by rw [hlow, hM]; rfl) hnz
  | mThenH ms ws1 sep hs ws2 hdm hnem hw1 hsep hdh hneh hw2 =>
    have hlow : toLowerList (ms ++ ws1 ++ 'm' :: (sep ++ hs ++ ws2 ++ ['h'])) =
        ms ++ ws1 ++ 'm' :: (sep ++ hs ++ ws2 ++ ['h']) := by
      apply toLowerList_fix
      apply chars_ok_append (chars_ok_append (chars_ok_digits hdm) (chars_ok_spaces hw1))
      intro c hc
      rcases List.mem_cons.mp hc with h1 | h1
      · rw [h1]; decide
      rcases List.mem_append.mp h1 with h2 | h2
      · rcases List.mem_append.mp h2 with h3 | h3
        · rcases List.mem_append.mp h3 with h4 | h4
          · exact space_below_upper (hsep c h4)
          · exact digit_below_upper (hdh c h4)
        · exact space_below_upper (hw2 c h3)
      · rw [List.mem_singleton.mp h2]; decide
    have hM : searchNum 'm' (ms ++ ws1 ++ 'm' :: (sep ++ hs ++ ws2 ++ ['h'])) =
        some (digitsVal ms) :=
      searchNum_found 'm' ms ws1 (sep ++ hs ++ ws2 ++ ['h']) hdm hnem hw1
        (by decide) (by decide)
    have hH : searchNum 'h' (ms ++ ws1 ++ 'm' :: (sep ++ hs ++ ws2 ++ ['h'])) =
        some (digitsVal hs) := by
      rw [searchNum_skip_digit_block 'h' ms ws1 'm' (sep ++ hs ++ ws2 ++ ['h'])
        hdm hw1 (by decide) (by decide) (by decide)]
      have e1 : searchNum 'h' ('m' :: (sep ++ hs ++ ws2 ++ ['h'])) =
          searchNum 'h' (sep ++ hs ++ ws2 ++ ['h']) :=
        searchNum_skip_nondigits 'h' ['m'] (sep ++ hs ++ ws2 ++ ['h'])
          (by intro x hx; rw [List.mem_singleton.mp hx]; decide)
      rw [e1]
      have hassoc : sep ++ hs ++ ws2 ++ ['h'] = sep ++ (hs ++ ws2 ++ ['h']) := by simp
      rw [hassoc, searchNum_skip_nondigits 'h' sep (hs ++ ws2 ++ ['h'])
        (fun x hx => space_not_digit (hsep x hx))]
      rw [show hs ++ ws2 ++ ['h'] = hs ++ ws2 ++ 'h' :: ([] : List Char) from rfl]
      exact searchNum_found 'h' hs ws2 [] hdh hneh hw2 (by decide) (by decide)
    exact parse_time_relative dp nowDay nowSod _ _ _
      (by rw [hlow, hH]; rfl) (by rw [hlow, hM]; rfl) hnz

/-- Witness for C6 at "2h30m" from now = 0: 2*3600 + 30*60 = 9000. -/
theorem c6_relative_duration_witness :
    parse_time_input (fun _ => none) 0 0
      (['2'] ++ [] ++ 'h' :: ([] ++ ['3', '0'] ++ [] ++ ['m'])) = (some 9000, none) := by
  have h := c6_relative_duration (fun _ => none) 0 0 _ _ _
    (WellFormedRel.hThenM ['2'] [] [] ['3', '0'] [] (by decide) (by decide) (by decide)
      (by decide) (by decide) (by decide) (by decide)) (by decide)
  exact h

/-- C8: an H:MM input whose hour exceeds 23 or whose minute exceeds 59
produces the out-of-range parse error, not a timestamp and not an
exception. -/
theorem c8_out_of_range (dp : List Char → Option Int) (nowDay nowSod : Int)
    (ds1 ds2 : List Char)
    (h1 : ∀ c ∈ ds1, isPyDigit c = true) (hne1 : ds1 ≠ [])
    (h2 : ∀ c ∈ ds2, isPyDigit c = true) (hne2 : ds2 ≠ [])
    (hrange : 23 < (digitsVal ds1 : Int) ∨ 59 < (digitsVal ds2 : Int)) :
    parse_time_input dp nowDay nowSod (ds1 ++ ':' :: ds2) =
      (none, some "Invalid time. Hours must be 0-23 and minutes must be 0-59") := by
  have hmem : ∀ c ∈ ds1 ++ ':' :: ds2,
      isPyDigit c = true ∨ c = ':' := by
    intro c hc
    rcases List.mem_append.mp hc with hx | hx
    · exact Or.inl (h1 c hx)
    rcases List.mem_cons.mp hx with hx | hx
    · exact Or.inr hx
    · exact Or.inl (h2 c hx)
  have hlow : toLowerList (ds1 ++ ':' :: ds2) = ds1 ++ ':' :: ds2 := by
    apply toLowerList_fix
    intro c hc
    rcases hmem c hc with hx | hx
    · exact digit_below_upper hx
    · rw [hx]; decide
  have hH : searchNum 'h' (ds1 ++ ':' :: ds2) = none := by
    apply searchNum_none
    intro c hc
    rcases hmem c hc with hx | hx
    · exact digit_ne_char hx (by decide)
    · rw [hx]; decide
  have hM : searchNum 'm' (ds1 ++ ':' :: ds2) = none := by
    apply searchNum_none
    intro c hc
    rcases hmem c hc with hx | hx
    · exact digit_ne_char hx (by decide)
    · rw [hx]; decide
  have hAmPm : containsAmPm (ds1 ++ ':' :: ds2) = false := by
    apply containsAmPm_eq_false
    · intro hmema
      rcases hmem 'a' hmema with hx | hx
      · cases hx
      · cases hx
    · intro hmemp
      rcases hmem 'p' hmemp with hx | hx
      · cases hx
      · cases hx
  have hsplit : splitOnColon (ds1 ++ ':' :: ds2) = [ds1, ds2] :=
    splitOnColon_once ds1 ds2
      (fun c hc => digit_ne_char (h1 c hc) (by decide))
      (fun c hc => digit_ne_char (h2 c hc) (by decide))
  have hcond : (digitsVal ds1 : Int) < 0 ∨ 23 < (digitsVal ds1 : Int) ∨
      (digitsVal ds2 : Int) < 0 ∨ 59 < (digitsVal ds2 : Int) := by
    rcases hrange with hx | hx
    · exact Or.inr (Or.inl hx)
    · exact Or.inr (Or.inr (Or.inr hx))
  simp only [parse_time_input, hlow, hH, hM, hAmPm, hsplit,
    pyInt_digits ds1 hne1 h1, pyInt_digits ds2 hne2 h2, Option.getD_none]
  rw [if_pos (⟨trivial, trivial⟩ : True ∧ True)]
  simp only [Bool.false_eq_true, if_false]
  rw [if_pos hcond]

/-- Witness for C8 at "25:00": hour 25 is out of range. -/
theorem c8_out_of_range_witness :
    parse_time_input (fun _ => none) 0 0 (['2', '5'] ++ ':' :: ['0', '0']) =
      (none, some "Invalid time. Hours must be 0-23 and minutes must be 0-59") :=
  c8_out_of_range (fun _ => none) 0 0 ['2', '5'] ['0', '0']
    (by decide) (by decide) (by decide) (by decide) (by decide)

/-- The candidate-choice rule exactly as claim C7 words it: fold the hour
to a 12-hour value (0 becomes 12, above 12 subtract 12), build the AM and
PM interpretations as candidates for today, roll each candidate already
at or before now forward by one day, and return the candidate with the
smaller now-relative delta. -/
def claim_c7_expected (nowDay nowSod hour minute : Int) : Int :=
  let now := nowDay * 86400 + nowSod
  let h12 := if hour = 0 then 12 else if 12 < hour then hour - 12 else hour
  let amh := if h12 = 12 then 0 else h12
  let pmh := if h12 = 12 then 12 else h12 + 12
  let am0 := nowDay * 86400 + amh * 3600 + minute * 60
  let pm0 := nowDay * 86400 + pmh * 3600 + minute * 60
  let am1 := if am0 ≤ now then am0 + 86400 else am0
  let pm1 := if pm0 ≤ now then pm0 + 86400 else pm0
  if am1 - now < pm1 - now then am1 else pm1

set_option maxHeartbeats 1000000 in
/-- C7 fails on the code for the in-range hours 0 and 12: on input
"12:30" at now = 09:00 the code evaluates
`now_naive.replace(hour=hour_12 + 12)` — that is `replace(hour=24)` —
which raises ValueError before the `hour_12 == 12` special case can run,
so parse returns a format error where the claim (and the code's own dead
special case) expects the 12:30 PM candidate (45000 = 12:30).  On inputs
away from that slip, such as "1:30" at 09:00, the code does return the
nearer candidate 13:30 (48600), as the claim says. -/
theorem c7_hour_twelve_value_error :
    parse_time_input (fun _ => none) 0 32400 ['1', '2', ':', '3', '0'] =
      (none, some "Invalid time format. Please use format like 1:30, 2h, or 30m") ∧
    claim_c7_expected 0 32400 12 30 = 45000 ∧
    parse_time_input (fun _ => none) 0 32400 ['1', ':', '3', '0'] = (some 48600, none) := by
  refine ⟨?_, ?_, ?_⟩ <;> decide

set_option maxHeartbeats 2000000 in
/-- C10: `parse_time_input` is total and always returns a pair with
exactly one populated component — a timestamp with no error, or an error
message with no timestamp — for every input string, every current time,
and every behavior of the fuzzy date parser it consults. -/
theorem c10_exactly_one_component (dp : List Char → Option Int) (nowDay nowSod : Int)
    (s : List Char) :
    ((parse_time_input dp nowDay nowSod s).1 = none ∧
      (parse_time_input dp nowDay nowSod s).2 ≠ none) ∨
    ((parse_time_input dp nowDay nowSod s).1 ≠ none ∧
      (parse_time_input dp nowDay nowSod s).2 = none) := by
  simp only [parse_time_input]
  repeat' split
  all_goals simp
